import Mathlib

/-!
Verification of the vapor-chamber command bus core (`src/command-bus.ts`).

The TypeScript core is embedded shallowly:

* `Command`, `CommandResult`, and the `Error` values thrown or synthesized by
  the bus become plain Lean structures (`Command`, `CommandResult`, `JSError`).
* Mutable JavaScript execution becomes a state-and-exception monad
  `Comp υ α := BusState υ → Except JSError α × BusState υ`: an uncaught throw
  is `Except.error`, and state mutations performed before a throw persist,
  exactly as in JavaScript.
* The bus's own mutable cells (`handlers`, `plugins`, `afterHooks`) live in
  `BusState`, together with an `errlog` list modelling the `console.error`
  diagnostic sink and a generic `user` component modelling all other mutable
  state a handler, plugin or hook may touch.
* Handlers, plugins and hooks are first-class JavaScript functions compared by
  identity (`Array.prototype.indexOf`, `Map` values).  They are represented by
  natural-number identities resolved through an `Env`, so that the registry and
  the plugin/hook arrays can be stored in the state without a circularity, and
  identity-based removal (`indexOf` + `splice`) is exact.
* `Map.get`/`Map.set`/`Map.delete` on the handler registry are embedded as the
  evident operations on `String → Option Nat` (the registry is never iterated
  by the core, so insertion order is irrelevant).
* The `for (const hook of afterHooks)` loop is embedded as structural
  recursion over the list value read from the state after the plugin chain
  resolves, i.e. the hook list is read live at that point, not snapshotted at
  dispatch entry.
* The async variant is embedded over the same monad: within one dispatch the
  async code is a single logical flow where every `await` is strict
  sequencing, so `Promise<T>` collapses to `T` and `await` to monadic bind.
-/

namespace VaporChamber

/-- A JavaScript `Error` value, identified by its message. -/
structure JSError where
  message : String
deriving Repr, DecidableEq

/-- Structure `Command` from `command-bus.ts`: `{action; target; payload?}` with the
`any`-typed fields drawn from an arbitrary value type `V`. -/
structure Command (V : Type) where
  action : String
  target : V
  payload : Option V

/-- Structure `CommandResult` from `command-bus.ts`: `{ok; value?; error?}`. -/
structure CommandResult (V : Type) where
  ok : Bool
  value : Option V
  error : Option JSError

/-- The error synthesized by `execute` when no handler is bound:
`new Error(\x60No handler: ${action}\x60)`. -/
def noHandlerError (action : String) : JSError :=
  ⟨"No handler: " ++ action⟩

/-- The mutable world: the bus's three registries, the `console.error`
diagnostic sink, and all other mutable state (`user`). -/
structure BusState (υ : Type) where
  handlers : String → Option Nat
  plugins : List Nat
  afterHooks : List Nat
  errlog : List String
  user : υ

/-- A JavaScript computation: transforms the world and either returns a value
or throws (mutations made before the throw persist). -/
def Comp (υ : Type) (α : Type) : Type :=
  BusState υ → Except JSError α × BusState υ

/-- Return a value without touching the world. -/
def ret {υ α : Type} (a : α) : Comp υ α :=
  fun s => (Except.ok a, s)

/-- Sequencing: run `m`; on a normal value continue with `f`, on an uncaught
throw propagate it (keeping `m`'s state changes). -/
def seqc {υ α β : Type} (m : Comp υ α) (f : α → Comp υ β) : Comp υ β :=
  fun s =>
    match m s with
    | (Except.ok a, s1) => f a s1
    | (Except.error e, s1) => (Except.error e, s1)

/-- Resolves handler / plugin / hook identities to their function bodies.
Identities play the role of JavaScript function identity. -/
structure Env (V υ : Type) where
  handler : Nat → Command V → Comp υ V
  plugin : Nat → Command V → Comp υ (CommandResult V) → Comp υ (CommandResult V)
  hook : Nat → Command V → CommandResult V → Comp υ Unit

/-- The innermost step `execute` of the blocking `dispatch`: no handler yields
the synthesized failure Result; otherwise the handler runs under a local
try/catch that converts a normal return into `{ok:true, value}` and a thrown
failure into `{ok:false, error}`. -/
def execute {V υ : Type} (env : Env V υ) (handlerOpt : Option Nat)
    (cmd : Command V) : Comp υ (CommandResult V) :=
  match handlerOpt with
  | none => ret ⟨false, none, some (noHandlerError cmd.action)⟩
  | some hid => fun s =>
      match env.handler hid cmd s with
      | (Except.ok v, s1) => (Except.ok ⟨true, some v, none⟩, s1)
      | (Except.error e, s1) => (Except.ok ⟨false, none, some e⟩, s1)

/-- Chain construction `plugins.reduceRight((next, plugin) => () => plugin(cmd, next), execute)`:
fold from the right so the first-registered plugin ends up outermost. -/
def buildChain {V υ : Type} (env : Env V υ) (cmd : Command V) (ps : List Nat)
    (innermost : Comp υ (CommandResult V)) : Comp υ (CommandResult V) :=
  ps.foldr (fun pid next => env.plugin pid cmd next) innermost

/-- The line written to the diagnostic sink when a hook throws:
`console.error('[vapor-chamber] Hook error:', e)`. -/
def hookErrorLine (e : JSError) : String :=
  "[vapor-chamber] Hook error: " ++ e.message

/-- The `for (const hook of afterHooks)` loop: each hook runs under its own
try/catch; a throw is appended to the diagnostic sink and the loop continues. -/
def runHooks {V υ : Type} (env : Env V υ) (cmd : Command V)
    (r : CommandResult V) : List Nat → Comp υ Unit
  | [] => ret ()
  | j :: rest => fun s =>
      match env.hook j cmd r s with
      | (Except.ok _, s1) => runHooks env cmd r rest s1
      | (Except.error e, s1) =>
          runHooks env cmd r rest {s1 with errlog := s1.errlog ++ [hookErrorLine e]}

/-- The tail of `dispatch` after the chain is built: invoke the chain (a throw
from a plugin body propagates uncaught, skipping the hooks), then run the
hooks over the live `afterHooks` list, then return the chain's Result. -/
def finishDispatch {V υ : Type} (env : Env V υ) (cmd : Command V)
    (chain : Comp υ (CommandResult V)) : Comp υ (CommandResult V) :=
  fun s0 =>
    match chain s0 with
    | (Except.error e, s1) => (Except.error e, s1)
    | (Except.ok result, s1) =>
        match runHooks env cmd result s1.afterHooks s1 with
        | (_, s2) => (Except.ok result, s2)

/-- The blocking `dispatch`: build the Command, look the handler up once at
entry, build the chain from the plugin list as it stands at entry, run it,
then notify hooks and return the Result. -/
def dispatch {V υ : Type} (env : Env V υ) (action : String) (target : V)
    (payload : Option V) : Comp υ (CommandResult V) :=
  fun s0 =>
    let cmd : Command V := ⟨action, target, payload⟩
    finishDispatch env cmd
      (buildChain env cmd s0.plugins (execute env (s0.handlers action) cmd)) s0

/-- Operation `Map.set` on the handler registry. -/
def mapSet (a : String) (hid : Nat) (m : String → Option Nat) :
    String → Option Nat :=
  fun k => if k = a then some hid else m k

/-- Operation `Map.delete` on the handler registry. -/
def mapDelete (a : String) (m : String → Option Nat) : String → Option Nat :=
  fun k => if k = a then none else m k

/-- Operation `register(action, handler)`: bind (replacing any prior binding) and return
the deregistration capability `() => handlers.delete(action)`, an
unconditional delete-by-key. -/
def register {υ : Type} (a : String) (hid : Nat) (s : BusState υ) :
    BusState υ × (BusState υ → BusState υ) :=
  ({s with handlers := mapSet a hid s.handlers},
   fun s1 => {s1 with handlers := mapDelete a s1.handlers})

/-- Removal via `indexOf` + `splice(i, 1)`: remove the first occurrence, if any. -/
def removeFirst (x : Nat) : List Nat → List Nat
  | [] => []
  | y :: rest => if y = x then rest else y :: removeFirst x rest

/-- Operation `use(plugin)`: append, and return an unsubscribe capability that removes
this exact plugin identity (first occurrence) if still present. -/
def usePlugin {υ : Type} (pid : Nat) (s : BusState υ) :
    BusState υ × (BusState υ → BusState υ) :=
  ({s with plugins := s.plugins ++ [pid]},
   fun s1 => {s1 with plugins := removeFirst pid s1.plugins})

/-- Operation `onAfter(hook)`: append, and return an unsubscribe capability that removes
this exact hook identity (first occurrence) if still present. -/
def onAfter {υ : Type} (hid : Nat) (s : BusState υ) :
    BusState υ × (BusState υ → BusState υ) :=
  ({s with afterHooks := s.afterHooks ++ [hid]},
   fun s1 => {s1 with afterHooks := removeFirst hid s1.afterHooks})

/-! ### The async variant (`createAsyncCommandBus`)

Within a single dispatch the async code is one logical flow whose `await`s
are strict sequencing, so `Promise<T>` collapses to `T` and each `await`
becomes monadic sequencing over the same `Comp` monad. -/

/-- Async `execute`: `await handler(cmd)` under the same local try/catch. -/
def executeAsync {V υ : Type} (env : Env V υ) (handlerOpt : Option Nat)
    (cmd : Command V) : Comp υ (CommandResult V) :=
  match handlerOpt with
  | none => ret ⟨false, none, some (noHandlerError cmd.action)⟩
  | some hid => fun s =>
      match env.handler hid cmd s with
      | (Except.ok v, s1) => (Except.ok ⟨true, some v, none⟩, s1)
      | (Except.error e, s1) => (Except.ok ⟨false, none, some e⟩, s1)

/-- Async chain construction: identical `reduceRight` over the plugin list. -/
def buildChainAsync {V υ : Type} (env : Env V υ) (cmd : Command V)
    (ps : List Nat) (innermost : Comp υ (CommandResult V)) :
    Comp υ (CommandResult V) :=
  ps.foldr (fun pid next => env.plugin pid cmd next) innermost

/-- Async hook loop: `await hook(cmd, result)` under per-hook try/catch. -/
def runHooksAsync {V υ : Type} (env : Env V υ) (cmd : Command V)
    (r : CommandResult V) : List Nat → Comp υ Unit
  | [] => ret ()
  | j :: rest => fun s =>
      match env.hook j cmd r s with
      | (Except.ok _, s1) => runHooksAsync env cmd r rest s1
      | (Except.error e, s1) =>
          runHooksAsync env cmd r rest {s1 with errlog := s1.errlog ++ [hookErrorLine e]}

/-- Async `dispatch` tail: `await chain()`, then the awaited hook loop. -/
def finishDispatchAsync {V υ : Type} (env : Env V υ) (cmd : Command V)
    (chain : Comp υ (CommandResult V)) : Comp υ (CommandResult V) :=
  fun s0 =>
    match chain s0 with
    | (Except.error e, s1) => (Except.error e, s1)
    | (Except.ok result, s1) =>
        match runHooksAsync env cmd result s1.afterHooks s1 with
        | (_, s2) => (Except.ok result, s2)

/-- The async `dispatch`: same steps as the blocking variant, with `await` at
the chain invocation and at each hook. -/
def dispatchAsync {V υ : Type} (env : Env V υ) (action : String) (target : V)
    (payload : Option V) : Comp υ (CommandResult V) :=
  fun s0 =>
    let cmd : Command V := ⟨action, target, payload⟩
    finishDispatchAsync env cmd
      (buildChainAsync env cmd s0.plugins (executeAsync env (s0.handlers action) cmd)) s0

/-! ### Helper forms of handlers, plugins and hooks used in the theorems -/

/-- Update only the `user` component of the world. -/
def modifyUser {υ : Type} (f : υ → υ) : Comp υ Unit :=
  fun s => (Except.ok (), {s with user := f s.user})

/-- A plugin that runs a `user`-state effect `pre`, calls `nextStep`, runs a
`user`-state effect `post`, and returns `nextStep`'s Result unchanged. -/
def effectPlugin {V υ : Type} (pre post : υ → υ) :
    Command V → Comp υ (CommandResult V) → Comp υ (CommandResult V) :=
  fun _cmd next =>
    seqc (modifyUser pre) fun _ =>
      seqc next fun r =>
        seqc (modifyUser post) fun _ => ret r

/-- A plugin that mutates the world by `f` and then delegates to `nextStep`. -/
def mutatePlugin {V υ : Type} (f : BusState υ → BusState υ) :
    Command V → Comp υ (CommandResult V) → Comp υ (CommandResult V) :=
  fun _cmd next => fun s => next (f s)

/-- A plugin that returns `k cmd` without ever calling `nextStep`. -/
def shortCircuitPlugin {V υ : Type} (k : Command V → Comp υ (CommandResult V)) :
    Command V → Comp υ (CommandResult V) → Comp υ (CommandResult V) :=
  fun cmd _next => k cmd

/-- A handler acting only on the `user` state, either returning normally or
throwing, as its underlying function `h` decides. -/
def liftHandler {V υ : Type} (h : Command V → υ → Except JSError V × υ) :
    Command V → Comp υ V :=
  fun cmd s => ((h cmd s.user).1, {s with user := (h cmd s.user).2})

/-- A never-throwing handler acting only on the `user` state. -/
def effectHandler {V υ : Type} (h : Command V → υ → υ × V) :
    Command V → Comp υ V :=
  fun cmd s => (Except.ok (h cmd s.user).2, {s with user := (h cmd s.user).1})

/-- A never-throwing hook acting only on the `user` state. -/
def okHook {V υ : Type} (g : Command V → CommandResult V → υ → υ) :
    Command V → CommandResult V → Comp υ Unit :=
  fun cmd r s => (Except.ok (), {s with user := g cmd r s.user})

/-- A hook that applies a `user`-state effect and then throws `e`. -/
def failHook {V υ : Type} (e : JSError)
    (g : Command V → CommandResult V → υ → υ) :
    Command V → CommandResult V → Comp υ Unit :=
  fun cmd r s => (Except.error e, {s with user := g cmd r s.user})

/-- The Result envelope the innermost step wraps a handler outcome in. -/
def handlerOutcomeResult {V : Type} : Except JSError V → CommandResult V
  | Except.ok v => ⟨true, some v, none⟩
  | Except.error e => ⟨false, none, some e⟩

/-! ### Concrete material for the witness theorems -/

/-- Append one marker to a trace. -/
def pushMark (m : String) : List String → List String :=
  fun u => u ++ [m]

/-- A registry binding only `"go"`, to handler identity `7`. -/
def regGo : String → Option Nat :=
  fun k => if k = "go" then some 7 else none

/-! ### Shared lemmas -/

theorem buildChain_cons {V υ : Type} (env : Env V υ) (cmd : Command V)
    (i : Nat) (ps : List Nat) (inner : Comp υ (CommandResult V)) :
    buildChain env cmd (i :: ps) inner =
      env.plugin i cmd (buildChain env cmd ps inner) := rfl

theorem buildChain_append {V υ : Type} (env : Env V υ) (cmd : Command V)
    (xs ys : List Nat) (inner : Comp υ (CommandResult V)) :
    buildChain env cmd (xs ++ ys) inner =
      buildChain env cmd xs (buildChain env cmd ys inner) := by
  simp [buildChain, List.foldr_append]

theorem dispatch_eq {V υ : Type} (env : Env V υ) (a : String) (t : V)
    (p : Option V) (s : BusState υ) :
    dispatch env a t p s =
      finishDispatch env ⟨a, t, p⟩
        (buildChain env ⟨a, t, p⟩ s.plugins
          (execute env (s.handlers a) ⟨a, t, p⟩)) s := rfl

theorem buildChain_congr {V υ : Type} (env env' : Env V υ) (cmd : Command V)
    (ps : List Nat) (inner : Comp υ (CommandResult V))
    (hag : ∀ i ∈ ps, env.plugin i = env'.plugin i) :
    buildChain env cmd ps inner = buildChain env' cmd ps inner := by
  induction ps with
  | nil => rfl
  | cons q qs ih =>
      have h1 : env.plugin q = env'.plugin q := hag q (List.mem_cons_self q qs)
      have h2 : ∀ i ∈ qs, env.plugin i = env'.plugin i :=
        fun i hi => hag i (List.mem_cons_of_mem q hi)
      rw [buildChain_cons, buildChain_cons, h1, ih h2]

theorem runHooks_congr {V υ : Type} (env env' : Env V υ) (cmd : Command V)
    (r : CommandResult V) (hs : List Nat) (hhk : env.hook = env'.hook) :
    runHooks env cmd r hs = runHooks env' cmd r hs := by
  induction hs with
  | nil => rfl
  | cons j js ih => simp only [runHooks]; rw [hhk, ih]

theorem execute_congr {V υ : Type} (env env' : Env V υ)
    (hopt : Option Nat) (cmd : Command V) (hhd : env.handler = env'.handler) :
    execute env hopt cmd = execute env' hopt cmd := by
  cases hopt with
  | none => rfl
  | some hid => simp only [execute]; rw [hhd]

theorem finishDispatch_congr {V υ : Type} (env env' : Env V υ)
    (cmd : Command V) (chain : Comp υ (CommandResult V))
    (hhk : env.hook = env'.hook) :
    finishDispatch env cmd chain = finishDispatch env' cmd chain := by
  have hr : runHooks env cmd = runHooks env' cmd := by
    funext r hs
    exact runHooks_congr env env' cmd r hs hhk
  funext s0
  simp only [finishDispatch, hr]

theorem runHooksAsync_eq {V υ : Type} (env : Env V υ) (cmd : Command V)
    (r : CommandResult V) (hs : List Nat) :
    runHooksAsync env cmd r hs = runHooks env cmd r hs := by
  induction hs with
  | nil => rfl
  | cons j js ih => simp only [runHooksAsync, runHooks]; rw [ih]

theorem executeAsync_eq {V υ : Type} (env : Env V υ) (hopt : Option Nat)
    (cmd : Command V) : executeAsync env hopt cmd = execute env hopt cmd := by
  cases hopt <;> rfl

theorem finishDispatchAsync_eq {V υ : Type} (env : Env V υ) (cmd : Command V)
    (chain : Comp υ (CommandResult V)) :
    finishDispatchAsync env cmd chain = finishDispatch env cmd chain := by
  have hr : runHooksAsync env cmd = runHooks env cmd := by
    funext r hs
    exact runHooksAsync_eq env cmd r hs
  funext s0
  simp only [finishDispatchAsync, finishDispatch, hr]

/-! ### Claims -/

/-- C6: for logically equivalent handlers, plugins and hooks, the async
variant's `dispatch` produces the same Result and the same sequence of state
effects (plugin before-logic in registration order, after-logic in reverse,
hooks in order strictly after the chain and before returning) as the blocking
variant's `dispatch`.  In this embedding every `await` is strict sequencing of
the single logical flow of one dispatch, so the two translated dispatchers are
the same state transformer, which gives both the identical Result and the
identical ordering of all observable effects, including when a layer
suspends. -/
theorem c6_async_refines_sync {V υ : Type} (env : Env V υ) (a : String)
    (t : V) (p : Option V) (s : BusState υ) :
    dispatchAsync env a t p s = dispatch env a t p s := by
  show finishDispatchAsync env ⟨a, t, p⟩
      (buildChainAsync env ⟨a, t, p⟩ s.plugins
        (executeAsync env (s.handlers a) ⟨a, t, p⟩)) s
    = finishDispatch env ⟨a, t, p⟩
      (buildChain env ⟨a, t, p⟩ s.plugins
        (execute env (s.handlers a) ⟨a, t, p⟩)) s
  rw [executeAsync_eq, finishDispatchAsync_eq]
  rfl

/-- C7: the deregistration capability returned by `register` removes the
binding by unconditional delete-by-key: after `register a h1` followed by
`register a h2`, the newer handler `h2` is bound, and invoking the capability
returned by the first (older) `register` call removes it, after which the
action resolves to no handler. -/
theorem c7_unregister_delete_by_key {υ : Type} (a : String) (h1 h2 : Nat)
    (s0 : BusState υ) :
    ((register a h2 (register a h1 s0).1).1).handlers a = some h2
    ∧ ((register a h1 s0).2 ((register a h2 (register a h1 s0).1).1)).handlers a
        = none := by
  constructor <;> simp [register, mapSet, mapDelete]

/-- C3: when no handler is bound for the action and no plugin intervenes, the
dispatch returns `{ok:false}` with the synthesized error naming the action —
whose message is literally `"No handler: " ++ action` — and, whatever the
environment's handlers would do, nothing runs: the state is returned
unchanged. -/
theorem c3_no_handler {V υ : Type} (env : Env V υ) (a : String) (t : V)
    (p : Option V) (s : BusState υ) (hh : s.handlers a = none)
    (hp : s.plugins = []) (hk : s.afterHooks = []) :
    dispatch env a t p s = (Except.ok ⟨false, none, some (noHandlerError a)⟩, s)
    ∧ (noHandlerError a).message = "No handler: " ++ a := by
  obtain ⟨hm, ps, hks, lg, u⟩ := s
  simp only at hp hk hh
  subst hp; subst hk
  refine ⟨?_, rfl⟩
  simp [dispatch, finishDispatch, buildChain, execute, runHooks, ret, hh]

/-- An environment whose plugins and hooks are inert, used by witnesses. -/
def envInert : Env Nat (List String) where
  handler := fun _ => effectHandler fun _ u => (pushMark "H" u, 10)
  plugin := fun _ => effectPlugin id id
  hook := fun _ _ _ => ret ()

/-- A bus state with nothing registered, used by witnesses. -/
def sEmpty : BusState (List String) :=
  ⟨fun _ => none, [], [], [], []⟩

theorem c3_no_handler_witness :
    dispatch envInert "missing.action" 0 none sEmpty =
      (Except.ok ⟨false, none, some (noHandlerError "missing.action")⟩, sEmpty)
    ∧ (noHandlerError "missing.action").message = "No handler: " ++ "missing.action" :=
  c3_no_handler envInert "missing.action" 0 none sEmpty rfl rfl rfl

/-- C2: with a handler bound and no plugins, if the handler returns `v`
normally the dispatch returns `{ok:true, value:v}`; if the handler throws `e`
the dispatch itself still returns normally (the failure does not propagate)
with `{ok:false, error:e}`. -/
theorem c2_handler_result {V υ : Type} (env : Env V υ) (a : String) (t : V)
    (p : Option V) (s : BusState υ) (hid : Nat)
    (h : Command V → υ → Except JSError V × υ)
    (hh : s.handlers a = some hid) (hp : s.plugins = [])
    (hk : s.afterHooks = []) (eh : env.handler hid = liftHandler h) :
    (∀ v u1, h ⟨a, t, p⟩ s.user = (Except.ok v, u1) →
       dispatch env a t p s = (Except.ok ⟨true, some v, none⟩, {s with user := u1}))
    ∧ (∀ e u1, h ⟨a, t, p⟩ s.user = (Except.error e, u1) →
       dispatch env a t p s = (Except.ok ⟨false, none, some e⟩, {s with user := u1})) := by
  obtain ⟨hm, ps, hks, lg, u⟩ := s
  simp only at hp hk hh ⊢
  subst hp; subst hk
  constructor
  · intro v u1 hres
    simp [dispatch, finishDispatch, buildChain, execute, runHooks, ret, hh,
      eh, liftHandler, hres]
  · intro e u1 hres
    simp [dispatch, finishDispatch, buildChain, execute, runHooks, ret, hh,
      eh, liftHandler, hres]

/-- A handler body that returns `42` on an empty trace and throws on a
nonempty one, used by the C2 witness. -/
def hC2 : Command Nat → List String → Except JSError Nat × List String :=
  fun _ u =>
    if u = [] then (Except.ok 42, pushMark "ran" u)
    else (Except.error ⟨"boom"⟩, pushMark "threw" u)

/-- An environment binding every handler identity to `hC2`, used by the C2
witness. -/
def envC2 : Env Nat (List String) where
  handler := fun _ => liftHandler hC2
  plugin := fun _ => effectPlugin id id
  hook := fun _ _ _ => ret ()

/-- A bus state binding only `"go"` (to handler identity `7`), with empty
plugin and hook lists. -/
def sGo : BusState (List String) :=
  ⟨regGo, [], [], [], []⟩

theorem c2_handler_result_witness :
    dispatch envC2 "go" 0 none sGo =
      (Except.ok ⟨true, some 42, none⟩, {sGo with user := ["ran"]})
    ∧ dispatch envC2 "go" 0 none {sGo with user := ["x"]} =
      (Except.ok ⟨false, none, some ⟨"boom"⟩⟩, {sGo with user := ["x", "threw"]}) := by
  constructor
  · exact (c2_handler_result envC2 "go" 0 none sGo 7 hC2 rfl rfl rfl rfl).1
      42 ["ran"] rfl
  · exact (c2_handler_result envC2 "go" 0 none {sGo with user := ["x"]} 7 hC2
      rfl rfl rfl rfl).2 ⟨"boom"⟩ ["x", "threw"] rfl

/-- C1: with plugins `i1` (registered first) and `i2` (registered second) and
a handler for the action, execution proceeds in the order i1-before,
i2-before, handler, i2-after, i1-after: the final Result carries the value the
handler computed on the state already transformed by `b1` then `b2`, and the
final user state is `a1 (a2 (handler-effect (b2 (b1 _))))`, exhibiting the
first-registered plugin as outermost (it sees the command first and the final
result last), for arbitrary before/after effects and handler. -/
theorem c1_plugin_order {V υ : Type} (env : Env V υ) (a : String) (t : V)
    (p : Option V) (s : BusState υ) (i1 i2 hid : Nat) (b1 a1 b2 a2 : υ → υ)
    (h : Command V → υ → υ × V)
    (hp : s.plugins = [i1, i2]) (hk : s.afterHooks = [])
    (hh : s.handlers a = some hid)
    (e1 : env.plugin i1 = effectPlugin b1 a1)
    (e2 : env.plugin i2 = effectPlugin b2 a2)
    (eh : env.handler hid = effectHandler h) :
    dispatch env a t p s =
      (Except.ok ⟨true, some (h ⟨a, t, p⟩ (b2 (b1 s.user))).2, none⟩,
       {s with user := a1 (a2 ((h ⟨a, t, p⟩ (b2 (b1 s.user))).1))}) := by
  obtain ⟨hm, ps, hks, lg, u⟩ := s
  simp only at hp hk hh ⊢
  subst hp; subst hk
  simp [dispatch, finishDispatch, buildChain, execute, runHooks, ret, seqc,
    effectPlugin, effectHandler, modifyUser, e1, e2, eh, hh]

/-- An environment wiring plugin identities `1` and `2` to marker-pushing
plugins and every handler identity to a marker-pushing handler returning
`10`, used by the C1 witness. -/
def envC1 : Env Nat (List String) where
  handler := fun _ => effectHandler fun _ u => (pushMark "H" u, 10)
  plugin := fun i =>
    if i = 1 then effectPlugin (pushMark "P1-before") (pushMark "P1-after")
    else effectPlugin (pushMark "P2-before") (pushMark "P2-after")
  hook := fun _ _ _ => ret ()

/-- The C1 witness bus state: `"go"` bound, plugins `1` then `2`. -/
def sC1 : BusState (List String) :=
  ⟨regGo, [1, 2], [], [], []⟩

theorem c1_plugin_order_witness :
    dispatch envC1 "go" 0 none sC1 =
      (Except.ok ⟨true, some 10, none⟩,
       {sC1 with
        user := ["P1-before", "P2-before", "H", "P2-after", "P1-after"]}) := by
  exact c1_plugin_order envC1 "go" 0 none sC1 1 2 7
    (pushMark "P1-before") (pushMark "P1-after")
    (pushMark "P2-before") (pushMark "P2-after")
    (fun _ u => (pushMark "H" u, 10)) rfl rfl rfl rfl rfl rfl

/-- C4: when some plugin returns a Result without ever calling `nextStep`, the
dispatch behaves exactly as if its chain consisted of the earlier-registered
plugins wrapped around that plugin's own computation: the handler and the
later-registered plugins do not occur in the chain at all (the right-hand side
consults neither the registry nor any plugin after `iSC`), and the Result the
plugin returns becomes the dispatch's Result as modified by the outer
plugins. -/
theorem c4_short_circuit {V υ : Type} (env : Env V υ) (a : String) (t : V)
    (p : Option V) (s : BusState υ) (iSC : Nat) (ps1 ps2 : List Nat)
    (k : Command V → Comp υ (CommandResult V))
    (hp : s.plugins = ps1 ++ iSC :: ps2)
    (esc : env.plugin iSC = shortCircuitPlugin k) :
    dispatch env a t p s =
      finishDispatch env ⟨a, t, p⟩ (buildChain env ⟨a, t, p⟩ ps1 (k ⟨a, t, p⟩)) s := by
  rw [dispatch_eq, hp, buildChain_append, buildChain_cons, esc]
  rfl

/-- An environment whose plugin `2` short-circuits with a `"Blocked"` failure
and whose handler would push a marker, used by the C4 witness. -/
def envC4 : Env Nat (List String) where
  handler := fun _ => effectHandler fun _ u => (pushMark "H" u, 10)
  plugin := fun i =>
    if i = 2 then shortCircuitPlugin fun _ =>
      seqc (modifyUser (pushMark "blocked")) fun _ =>
        ret ⟨false, none, some ⟨"Blocked"⟩⟩
    else effectPlugin (pushMark "P1-before") (pushMark "P1-after")
  hook := fun _ _ _ => ret ()

/-- The C4 witness bus state: `"go"` bound, plugins `1`, `2`, `3`. -/
def sC4 : BusState (List String) :=
  ⟨regGo, [1, 2, 3], [], [], []⟩

theorem c4_short_circuit_witness :
    dispatch envC4 "go" 0 none sC4 =
      finishDispatch envC4 ⟨"go", 0, none⟩
        (buildChain envC4 ⟨"go", 0, none⟩ [1]
          (seqc (modifyUser (pushMark "blocked")) fun _ =>
            ret ⟨false, none, some ⟨"Blocked"⟩⟩)) sC4 := by
  exact c4_short_circuit envC4 "go" 0 none sC4 2 [1] [3]
    (fun _ => seqc (modifyUser (pushMark "blocked")) fun _ =>
      ret ⟨false, none, some ⟨"Blocked"⟩⟩) rfl rfl

/-- C5: after the plugin chain produces a Result, every registered hook runs
in registration order with the Command and that Result (each `g` below
receives both); a hook that throws is contained — its failure is appended to
the diagnostic sink, it never propagates to the caller — the remaining hooks
still run, and the Result returned is the chain's Result unchanged, whether
the handler succeeded or threw. -/
theorem c5_hook_containment {V υ : Type} (env : Env V υ) (a : String) (t : V)
    (p : Option V) (s : BusState υ) (hid j1 j2 j3 : Nat)
    (h : Command V → υ → Except JSError V × υ)
    (g1 g2 g3 : Command V → CommandResult V → υ → υ) (e2 : JSError)
    (hp : s.plugins = []) (hk : s.afterHooks = [j1, j2, j3])
    (hh : s.handlers a = some hid)
    (eh : env.handler hid = liftHandler h)
    (ej1 : env.hook j1 = okHook g1)
    (ej2 : env.hook j2 = failHook e2 g2)
    (ej3 : env.hook j3 = okHook g3) :
    dispatch env a t p s =
      (Except.ok (handlerOutcomeResult (h ⟨a, t, p⟩ s.user).1),
       {s with
        user := g3 ⟨a, t, p⟩ (handlerOutcomeResult (h ⟨a, t, p⟩ s.user).1)
          (g2 ⟨a, t, p⟩ (handlerOutcomeResult (h ⟨a, t, p⟩ s.user).1)
            (g1 ⟨a, t, p⟩ (handlerOutcomeResult (h ⟨a, t, p⟩ s.user).1)
              ((h ⟨a, t, p⟩ s.user).2))),
        errlog := s.errlog ++ [hookErrorLine e2]}) := by
  obtain ⟨hm, ps, hks, lg, u⟩ := s
  simp only at hp hk hh ⊢
  subst hp; subst hk
  rcases hres : h ⟨a, t, p⟩ u with ⟨ex, u1⟩
  cases ex with
  | ok v =>
      simp [dispatch, finishDispatch, buildChain, execute, runHooks, ret, hh,
        eh, liftHandler, hres, ej1, ej2, ej3, okHook, failHook,
        handlerOutcomeResult]
  | error e =>
      simp [dispatch, finishDispatch, buildChain, execute, runHooks, ret, hh,
        eh, liftHandler, hres, ej1, ej2, ej3, okHook, failHook,
        handlerOutcomeResult]

/-- An environment for the C5 witness: handler `hC2`, hook `1` pushes a
marker, hook `2` pushes a marker then throws, hook `3` pushes a marker. -/
def envC5 : Env Nat (List String) where
  handler := fun _ => liftHandler hC2
  plugin := fun _ => effectPlugin id id
  hook := fun j =>
    if j = 1 then okHook fun _ _ u => pushMark "hook1" u
    else if j = 2 then failHook ⟨"hookboom"⟩ fun _ _ u => pushMark "hook2" u
    else okHook fun _ _ u => pushMark "hook3" u

/-- The C5 witness bus state: `"go"` bound, hooks `1`, `2`, `3`. -/
def sC5 : BusState (List String) :=
  ⟨regGo, [], [1, 2, 3], [], []⟩

theorem c5_hook_containment_witness :
    dispatch envC5 "go" 0 none sC5 =
      (Except.ok ⟨true, some 42, none⟩,
       {sC5 with
        user := ["ran", "hook1", "hook2", "hook3"],
        errlog := [hookErrorLine ⟨"hookboom"⟩]}) := by
  exact c5_hook_containment envC5 "go" 0 none sC5 7 1 2 3 hC2
    (fun _ _ u => pushMark "hook1" u) (fun _ _ u => pushMark "hook2" u)
    (fun _ _ u => pushMark "hook3" u) ⟨"hookboom"⟩
    rfl rfl rfl rfl rfl rfl rfl

/-- C8: the plugins executed by a dispatch are exactly the snapshot of the
plugin list at the moment chain construction begins.  First conjunct: the
dispatch depends on plugin behaviour only for identities in that snapshot, so
a plugin added (`use`) after construction begins — i.e. any identity outside
the snapshot — cannot affect the in-flight dispatch, whatever its behaviour.
Second conjunct: a plugin that rewrites the plugin list mid-dispatch by an
arbitrary `f` (covering `use` and plugin unsubscription, e.g. removing the
later plugin `i2`) changes only the stored list: `i2` and the handler still
execute exactly as in the snapshot, and only future dispatches see `f`'s
effect. -/
theorem c8_plugin_snapshot {V υ : Type} :
    (∀ (env env' : Env V υ) (a : String) (t : V) (p : Option V)
       (s : BusState υ),
       env.handler = env'.handler → env.hook = env'.hook →
       (∀ i ∈ s.plugins, env.plugin i = env'.plugin i) →
       dispatch env a t p s = dispatch env' a t p s)
    ∧ (∀ (env : Env V υ) (a : String) (t : V) (p : Option V) (s : BusState υ)
         (i1 i2 hid : Nat) (f : List Nat → List Nat) (b2 a2 : υ → υ)
         (h : Command V → υ → υ × V),
       s.plugins = [i1, i2] → s.afterHooks = [] → s.handlers a = some hid →
       env.plugin i1 = mutatePlugin (fun st => {st with plugins := f st.plugins}) →
       env.plugin i2 = effectPlugin b2 a2 →
       env.handler hid = effectHandler h →
       dispatch env a t p s =
         (Except.ok ⟨true, some (h ⟨a, t, p⟩ (b2 s.user)).2, none⟩,
          {s with
           plugins := f s.plugins,
           user := a2 ((h ⟨a, t, p⟩ (b2 s.user)).1)})) := by
  constructor
  · intro env env' a t p s hhd hhok hag
    have hc : buildChain env ⟨a, t, p⟩ s.plugins
          (execute env (s.handlers a) ⟨a, t, p⟩)
        = buildChain env' ⟨a, t, p⟩ s.plugins
          (execute env' (s.handlers a) ⟨a, t, p⟩) := by
      rw [execute_congr env env' (s.handlers a) ⟨a, t, p⟩ hhd,
        buildChain_congr env env' ⟨a, t, p⟩ s.plugins _ hag]
    rw [dispatch_eq, dispatch_eq, hc,
      finishDispatch_congr env env' ⟨a, t, p⟩ _ hhok]
  · intro env a t p s i1 i2 hid f b2 a2 h hp hk hh e1 e2 ehh
    obtain ⟨hm, ps, hks, lg, u⟩ := s
    simp only at hp hk hh ⊢
    subst hp; subst hk
    simp [dispatch, finishDispatch, buildChain, execute, runHooks, ret, seqc,
      mutatePlugin, effectPlugin, effectHandler, modifyUser, e1, e2, ehh, hh]

/-- An environment for the first C8 witness conjunct, differing from
`envInert` only at plugin identity `99`, which never appears in the
snapshot. -/
def envC8b : Env Nat (List String) where
  handler := fun _ => effectHandler fun _ u => (pushMark "H" u, 10)
  plugin := fun i =>
    if i = 99 then shortCircuitPlugin fun _ => ret ⟨false, none, some ⟨"x"⟩⟩
    else effectPlugin id id
  hook := fun _ _ _ => ret ()

/-- An environment for the second C8 witness conjunct: plugin `1` unsubscribes
plugin `2` from the live list before delegating, plugin `2` pushes markers. -/
def envC8c : Env Nat (List String) where
  handler := fun _ => effectHandler fun _ u => (pushMark "H" u, 10)
  plugin := fun i =>
    if i = 1 then
      mutatePlugin fun st => {st with plugins := removeFirst 2 st.plugins}
    else effectPlugin (pushMark "P2-before") (pushMark "P2-after")
  hook := fun _ _ _ => ret ()

/-- The C8 witness bus states. -/
def sC8a : BusState (List String) :=
  ⟨regGo, [1], [], [], []⟩

def sC8c : BusState (List String) :=
  ⟨regGo, [1, 2], [], [], []⟩

theorem c8_plugin_snapshot_witness :
    dispatch envInert "go" 0 none sC8a = dispatch envC8b "go" 0 none sC8a
    ∧ dispatch envC8c "go" 0 none sC8c =
      (Except.ok ⟨true, some 10, none⟩,
       {sC8c with
        plugins := [1],
        user := ["P2-before", "H", "P2-after"]}) := by
  constructor
  · exact c8_plugin_snapshot.1 envInert envC8b "go" 0 none sC8a rfl rfl
      (fun i hi => by
        have h1 : i = 1 := by simpa [sC8a] using hi
        subst h1; rfl)
  · exact c8_plugin_snapshot.2 envC8c "go" 0 none sC8c 1 2 7
      (removeFirst 2) (pushMark "P2-before") (pushMark "P2-after")
      (fun _ u => (pushMark "H" u, 10)) rfl rfl rfl rfl rfl rfl

/-- C9: the handler lookup happens once, at entry to `dispatch`, before the
chain runs: a plugin that rewrites the handler registry mid-dispatch by an
arbitrary `g` (covering `register` and deregistration for the dispatched
action) only changes the stored registry — the in-flight dispatch still
invokes the handler bound at entry (first conjunct), and when no handler was
bound at entry it still takes the no-handler branch even if `g` binds one
(second conjunct, where the environment's handler behaviours are arbitrary). -/
theorem c9_handler_snapshot {V υ : Type} :
    (∀ (env : Env V υ) (a : String) (t : V) (p : Option V) (s : BusState υ)
       (i1 hid : Nat) (g : (String → Option Nat) → String → Option Nat)
       (h : Command V → υ → Except JSError V × υ),
       s.plugins = [i1] → s.afterHooks = [] → s.handlers a = some hid →
       env.plugin i1 = mutatePlugin (fun st => {st with handlers := g st.handlers}) →
       env.handler hid = liftHandler h →
       dispatch env a t p s =
         (Except.ok (handlerOutcomeResult (h ⟨a, t, p⟩ s.user).1),
          {s with
           handlers := g s.handlers,
           user := (h ⟨a, t, p⟩ s.user).2}))
    ∧ (∀ (env : Env V υ) (a : String) (t : V) (p : Option V) (s : BusState υ)
         (i1 : Nat) (g : (String → Option Nat) → String → Option Nat),
       s.plugins = [i1] → s.afterHooks = [] → s.handlers a = none →
       env.plugin i1 = mutatePlugin (fun st => {st with handlers := g st.handlers}) →
       dispatch env a t p s =
         (Except.ok ⟨false, none, some (noHandlerError a)⟩,
          {s with handlers := g s.handlers})) := by
  constructor
  · intro env a t p s i1 hid g h hp hk hh e1 ehh
    obtain ⟨hm, ps, hks, lg, u⟩ := s
    simp only at hp hk hh ⊢
    subst hp; subst hk
    rcases hres : h ⟨a, t, p⟩ u with ⟨ex, u1⟩
    cases ex with
    | ok v =>
        simp [dispatch, finishDispatch, buildChain, execute, runHooks, ret,
          mutatePlugin, liftHandler, e1, ehh, hh, hres, handlerOutcomeResult]
    | error e =>
        simp [dispatch, finishDispatch, buildChain, execute, runHooks, ret,
          mutatePlugin, liftHandler, e1, ehh, hh, hres, handlerOutcomeResult]
  · intro env a t p s i1 g hp hk hh e1
    obtain ⟨hm, ps, hks, lg, u⟩ := s
    simp only at hp hk hh ⊢
    subst hp; subst hk
    simp [dispatch, finishDispatch, buildChain, execute, runHooks, ret,
      mutatePlugin, e1, hh]

/-- An environment for the first C9 witness conjunct: plugin `1` deletes the
`"go"` binding mid-dispatch; the handler bound at entry is `hC2`. -/
def envC9 : Env Nat (List String) where
  handler := fun _ => liftHandler hC2
  plugin := fun _ =>
    mutatePlugin fun st => {st with handlers := mapDelete "go" st.handlers}
  hook := fun _ _ _ => ret ()

/-- An environment for the second C9 witness conjunct: plugin `1` binds
`"go"` mid-dispatch, too late for the in-flight dispatch. -/
def envC9b : Env Nat (List String) where
  handler := fun _ => liftHandler hC2
  plugin := fun _ =>
    mutatePlugin fun st => {st with handlers := mapSet "go" 7 st.handlers}
  hook := fun _ _ _ => ret ()

def sC9 : BusState (List String) :=
  ⟨regGo, [1], [], [], []⟩

def sC9b : BusState (List String) :=
  ⟨fun _ => none, [1], [], [], []⟩

theorem c9_handler_snapshot_witness :
    dispatch envC9 "go" 0 none sC9 =
      (Except.ok ⟨true, some 42, none⟩,
       {sC9 with handlers := mapDelete "go" regGo, user := ["ran"]})
    ∧ dispatch envC9b "go" 0 none sC9b =
      (Except.ok ⟨false, none, some (noHandlerError "go")⟩,
       {sC9b with handlers := mapSet "go" 7 fun _ => none}) := by
  constructor
  · exact c9_handler_snapshot.1 envC9 "go" 0 none sC9 1 7 (mapDelete "go")
      hC2 rfl rfl rfl rfl rfl
  · exact c9_handler_snapshot.2 envC9b "go" 0 none sC9b 1 (mapSet "go" 7)
      rfl rfl rfl rfl

/-- C10: the hook list is not snapshotted at dispatch entry: the loop reads
the live `afterHooks` list only after the chain resolves.  Here the hooks at
entry are `[j1, j2]`, and during the chain a plugin unsubscribes `j2` and
registers `j3` (`onAfter`); the dispatch then invokes exactly `j1` and `j3`,
in order, with the chain's Result — `j3` although it was added mid-dispatch,
and not `j2`, whose behaviour is left entirely unconstrained. -/
theorem c10_live_hooks {V υ : Type} (env : Env V υ) (a : String) (t : V)
    (p : Option V) (s : BusState υ) (hid i1 j1 j2 j3 : Nat)
    (h : Command V → υ → υ × V) (g1 g3 : Command V → CommandResult V → υ → υ)
    (hne : j1 ≠ j2)
    (hp : s.plugins = [i1]) (hk : s.afterHooks = [j1, j2])
    (hh : s.handlers a = some hid)
    (e1 : env.plugin i1 = mutatePlugin (fun st =>
      {st with afterHooks := removeFirst j2 st.afterHooks ++ [j3]}))
    (eh : env.handler hid = effectHandler h)
    (ej1 : env.hook j1 = okHook g1)
    (ej3 : env.hook j3 = okHook g3) :
    dispatch env a t p s =
      (Except.ok ⟨true, some (h ⟨a, t, p⟩ s.user).2, none⟩,
       {s with
        afterHooks := [j1, j3],
        user := g3 ⟨a, t, p⟩ ⟨true, some (h ⟨a, t, p⟩ s.user).2, none⟩
          (g1 ⟨a, t, p⟩ ⟨true, some (h ⟨a, t, p⟩ s.user).2, none⟩
            ((h ⟨a, t, p⟩ s.user).1))}) := by
  obtain ⟨hm, ps, hks, lg, u⟩ := s
  simp only at hp hk hh ⊢
  subst hp; subst hk
  simp [dispatch, finishDispatch, buildChain, execute, runHooks, ret,
    mutatePlugin, effectHandler, okHook, removeFirst, e1, eh, ej1, ej3, hh,
    hne]

/-- An environment for the C10 witness: plugin `1` unsubscribes hook `2` and
registers hook `3` mid-chain; hooks `1`, `2`, `3` push distinct markers. -/
def envC10 : Env Nat (List String) where
  handler := fun _ => effectHandler fun _ u => (pushMark "H" u, 10)
  plugin := fun _ =>
    mutatePlugin fun st =>
      {st with afterHooks := removeFirst 2 st.afterHooks ++ [3]}
  hook := fun j =>
    if j = 1 then okHook fun _ _ u => pushMark "hook1" u
    else if j = 3 then okHook fun _ _ u => pushMark "hook3" u
    else okHook fun _ _ u => pushMark "hook2" u

def sC10 : BusState (List String) :=
  ⟨regGo, [1], [1, 2], [], []⟩

theorem c10_live_hooks_witness :
    dispatch envC10 "go" 0 none sC10 =
      (Except.ok ⟨true, some 10, none⟩,
       {sC10 with
        afterHooks := [1, 3],
        user := ["H", "hook1", "hook3"]}) := by
  exact c10_live_hooks envC10 "go" 0 none sC10 7 1 1 2 3
    (fun _ u => (pushMark "H" u, 10))
    (fun _ _ u => pushMark "hook1" u) (fun _ _ u => pushMark "hook3" u)
    (by decide) rfl rfl rfl rfl rfl rfl rfl

end VaporChamber
